import Mathlib

/-!
Verification development for the automagic daemon: a shallow embedding of its
scheduler, process-lifecycle manager, session store and comment classifier,
together with theorems about their behaviour.

Modelling conventions.  Go strings are modelled as lists of characters (every
string handled by the daemon — labels, usernames, identifiers, RFC3339
timestamps — is ASCII).  Go wall-clock values (time.Time) are modelled as a
pair of unix seconds and a nanosecond part; time.Time.Unix() drops the
nanosecond part and time.Unix(sec, 0) rebuilds a value with a zero nanosecond
part, exactly as in the Go standard library.  Standard-library RFC3339
parsing (time.Parse) is an external call; a timestamp is therefore carried as
the raw string together with the parse result (none when the string does not
parse).  Maps (map[string]string, map[int]bool, the SQLite table keyed by its
integer primary key) are modelled as association lists; nil maps are
distinguished from empty ones by an Option where the code distinguishes them.
-/

/-- Go strings.ToLower restricted to ASCII (all inputs here are ASCII). -/
def asciiLower (s : List Char) : List Char := s.map Char.toLower

/-- The first list is a leading segment of the second (helper for the
substring search of Go strings.Contains). -/
def isLeadingSeg : List Char → List Char → Bool
  | [], _ => true
  | _ :: _, [] => false
  | a :: as, b :: bs => a == b && isLeadingSeg as bs

/-- Go strings.Contains s sub: sub occurs contiguously inside s. -/
def goContains : List Char → List Char → Bool
  | [], sub => sub.isEmpty
  | c :: rest, sub => isLeadingSeg sub (c :: rest) || goContains rest sub

/-- Go string comparison s < t (byte-wise lexicographic). -/
def strLt : List Char → List Char → Bool
  | [], [] => false
  | [], _ :: _ => true
  | _ :: _, [] => false
  | a :: as, b :: bs => decide (a.toNat < b.toNat) || (a == b && strLt as bs)

/-- Go time.Time wall-clock value: unix seconds and nanosecond part. -/
structure GoTime where
  sec : Int
  nsec : Nat
  deriving DecidableEq

/-- t.After u in Go: t is strictly later than u. -/
def GoTime.after (t u : GoTime) : Bool :=
  decide (u.sec < t.sec) || (u.sec == t.sec && decide (u.nsec < t.nsec))

/-- time.Unix(sec, 0): rebuild a time from stored unix seconds. -/
def timeUnix (s : Int) : GoTime := ⟨s, 0⟩

/-- t.Unix(): the unix seconds, dropping the nanosecond part. -/
def GoTime.unix (t : GoTime) : Int := t.sec

/-- The later of two Go times.  This is the spec-side "maximum" used in the
C2 comparison; the daemon code itself never computes it. -/
def laterTime (t u : GoTime) : GoTime := if u.after t then u else t

/-- One character of the lowercase-hex class [0-9a-f] of the session-id
pattern. -/
def isHexLower (c : Char) : Bool :=
  (decide ('0' ≤ c) && decide (c ≤ '9')) || (decide ('a' ≤ c) && decide (c ≤ 'f'))

/-- Consume exactly n lowercase-hex characters, returning the rest of the
string, or none. -/
def takeHex : Nat → List Char → Option (List Char)
  | 0, cs => some cs
  | _ + 1, [] => none
  | n + 1, c :: cs => if isHexLower c then takeHex n cs else none

/-- Consume one literal dash. -/
def takeDash : List Char → Option (List Char)
  | '-' :: cs => some cs
  | _ => none

/-- isValidUUID from the daemon: anchored match of the 8-4-4-4-12
lowercase-hex groups separated by dashes (the canonical 36-character
resumable-id shape).  The same pattern is used by the store's
CleanupInvalidSessions. -/
def isValidUUID (s : List Char) : Bool :=
  ((((((((takeHex 8 s).bind takeDash).bind (takeHex 4)).bind takeDash).bind
      (takeHex 4)).bind takeDash).bind (takeHex 4)).bind takeDash).bind (takeHex 12)
    == some []

/-- GitLab note author: display name and handle (username). -/
structure Author where
  name : List Char
  username : List Char
  deriving DecidableEq

/-- RFC3339 timestamp carried on a GitLab note: the raw string plus the
result of Go time.Parse(time.RFC3339, raw); none when parsing fails. -/
structure Stamp where
  raw : List Char
  parsed : Option GoTime
  deriving DecidableEq

/-- GitLab conversation note (gitlab.Note): author, body, creation timestamp
and the system-generated flag. -/
structure Note where
  author : Author
  body : List Char
  createdAt : Stamp
  system : Bool
  deriving DecidableEq

/-- Bot-comment detection transcribed from checkForHumanReviewIssuesWithContext:
the lowercased display name containing "claude" or "bot", the lowercased
handle containing "bot", or the handle being exactly the configured username
while the lowercased configured username contains "bot". -/
def isBotComment (configUsername : List Char) (n : Note) : Bool :=
  let authorName := asciiLower n.author.name
  let nameHit := goContains authorName ("claude".data) || goContains authorName ("bot".data)
  let authorUsername := asciiLower n.author.username
  let usernameHit := goContains authorUsername ("bot".data)
  let botUsername := asciiLower configUsername
  let configHit := goContains botUsername ("bot".data) && n.author.username == configUsername
  nameHit || usernameHit || configHit

/-- A display name carries a bot indicator: it contains "claude" or "bot",
case-insensitively (the spec's bot-indicating substrings for names). -/
def nameHasBotIndicator (s : List Char) : Bool :=
  goContains (asciiLower s) ("claude".data) || goContains (asciiLower s) ("bot".data)

/-- A handle carries a bot indicator: it contains "bot", case-insensitively
(the spec's bot-indicating substring for handles). -/
def handleHasBotIndicator (s : List Char) : Bool :=
  goContains (asciiLower s) ("bot".data)

/-- Spec-side classifier for the C5 refinement, written from the spec's
words: bot-authored when the display name or the handle contains a
bot-indicating substring, or when the handle equals the configured service
account's handle and that configured handle itself contains a bot-indicating
substring. -/
def specBotClassifier (configUsername : List Char) (n : Note) : Bool :=
  nameHasBotIndicator n.author.name || handleHasBotIndicator n.author.username ||
    (n.author.username == configUsername && handleHasBotIndicator configUsername)

/-- Daemon label configuration: trigger (claude), in-progress (process) and
review label names. -/
structure LabelCfg where
  claudeLabel : String
  processLabel : String
  reviewLabel : String
  deriving DecidableEq

/-- The label rewrite of processIssueWithLabelUpdate: keep every label other
than the trigger label and the review label, then append the in-progress
label; the result is sent to the tracker in one UpdateIssueLabels call. -/
def processIssueNewLabels (cfg : LabelCfg) (labels : List String) : List String :=
  (labels.filter (fun l => l != cfg.claudeLabel && l != cfg.reviewLabel)) ++ [cfg.processLabel]

/-- Durable session record (session.CompletedSession): everything needed to
reproduce the execution environment on resume.  envVars is none when the Go
map was nil. -/
structure CompletedSession where
  issueIID : Nat
  sessionID : List Char
  projectPath : List Char
  completionTime : GoTime
  lastCommentTime : Option GoTime
  workingDir : List Char
  claudeCommand : List Char
  claudeFlags : List Char
  envVars : Option (List (List Char × List Char))
  deriving DecidableEq

/-- One row of the SQLite completed_sessions table: timestamps are persisted
as unix seconds (completionTime.Unix()), the environment map as a JSON blob
(none models the empty string stored for a nil map; Go's JSON encoding of a
map[string]string round-trips the map, so the blob is carried as the map). -/
structure SessionRow where
  issueIID : Nat
  sessionID : List Char
  projectPath : List Char
  completionTimeUnix : Int
  lastCommentTimeUnix : Option Int
  workingDir : List Char
  claudeCommand : List Char
  claudeFlags : List Char
  envVars : Option (List (List Char × List Char))
  deriving DecidableEq

/-- AddCompletedSession of the SQLite store: INSERT OR REPLACE keyed by
issue_iid, writing NULL for last_comment_time and unix seconds for the
completion time. -/
def sqliteAddCompletedSession (tbl : List SessionRow) (issueIID : Nat)
    (sessionID projectPath : List Char) (completionTime : GoTime)
    (workingDir claudeCommand claudeFlags : List Char)
    (envVars : Option (List (List Char × List Char))) : List SessionRow :=
  (⟨issueIID, sessionID, projectPath, completionTime.unix, none,
      workingDir, claudeCommand, claudeFlags, envVars⟩ : SessionRow)
    :: tbl.filter (fun r => r.issueIID != issueIID)

/-- GetCompletedSession of the SQLite store: point lookup by issue_iid,
rebuilding the record with time.Unix(storedSeconds, 0) timestamps. -/
def sqliteGetCompletedSession (tbl : List SessionRow) (issueIID : Nat) :
    Option CompletedSession :=
  match tbl.find? (fun r => r.issueIID == issueIID) with
  | none => none
  | some r => some ⟨r.issueIID, r.sessionID, r.projectPath,
      timeUnix r.completionTimeUnix, r.lastCommentTimeUnix.map timeUnix,
      r.workingDir, r.claudeCommand, r.claudeFlags, r.envVars⟩

/-- CleanupInvalidSessions of the SQLite store (startup maintenance): delete
every row whose session_id does not match the canonical token shape. -/
def cleanupInvalidSessions (tbl : List SessionRow) : List SessionRow :=
  tbl.filter (fun r => isValidUUID r.sessionID)

/-- AddCompletedSession of the legacy JSON store: replace the map entry for
the issue with a record holding the given fields (no last-comment time). -/
def jsonAddCompletedSession (st : List CompletedSession) (issueIID : Nat)
    (sessionID projectPath : List Char) (completionTime : GoTime)
    (workingDir claudeCommand claudeFlags : List Char)
    (envVars : Option (List (List Char × List Char))) : List CompletedSession :=
  (⟨issueIID, sessionID, projectPath, completionTime, none,
      workingDir, claudeCommand, claudeFlags, envVars⟩ : CompletedSession)
    :: st.filter (fun s => s.issueIID != issueIID)

/-- GetCompletedSession of the legacy JSON store: point lookup returning a
copy of the in-memory record. -/
def jsonGetCompletedSession (st : List CompletedSession) (issueIID : Nat) :
    Option CompletedSession :=
  st.find? (fun s => s.issueIID == issueIID)

/-- Cutoff of the review scan (checkForReviewIssuesWithCommentsWithContext):
the stored last-comment time when present, otherwise the completion time. -/
def cutoffTime (s : CompletedSession) : GoTime :=
  match s.lastCommentTime with
  | some t => t
  | none => s.completionTime

/-- GetIssueCommentsAfterWithContext: flatten the discussion notes in order,
drop system notes and notes with unparseable timestamps, and keep exactly the
notes whose creation time is strictly after the given time. -/
def getIssueCommentsAfter (discussions : List (List Note)) (afterT : GoTime) :
    List Note :=
  discussions.join.filter (fun n =>
    !n.system && match n.createdAt.parsed with
      | none => false
      | some t => t.after afterT)

/-- Number of resume subprocesses started by the memory-mode review scan for
one review-labelled issue (checkForReviewIssuesWithCommentsWithContext
feeding resumeSessionWithCommentsWithContext, live mode): a resume subprocess
starts exactly when the issue has a stored session, some non-system comment
is strictly newer than the cutoff, and the stored session id passes
isValidUUID.  The scan never inspects comment authors.  (When the id fails
validation the resume is skipped with a nil error, so the caller still counts
a "resumed session", but no subprocess is launched.) -/
def memoryResumeLaunches (sess : Option CompletedSession)
    (discussions : List (List Note)) : Nat :=
  match sess with
  | none => 0
  | some s =>
    let newComments := getIssueCommentsAfter discussions (cutoffTime s)
    if newComments.isEmpty then 0
    else if isValidUUID s.sessionID then 1 else 0

/-- Sort comparator of the memory-less review scan: parsed-time Before, with
fallback to raw-string comparison when either timestamp fails to parse. -/
def noteLess (a b : Note) : Bool :=
  match a.createdAt.parsed, b.createdAt.parsed with
  | some ta, some tb => tb.after ta
  | _, _ => strLt a.createdAt.raw b.createdAt.raw

/-- Insert a note into a list ordered by noteLess. -/
def insertNote (n : Note) : List Note → List Note
  | [] => [n]
  | m :: ms => if noteLess n m then n :: m :: ms else m :: insertNote n ms

/-- Model of the scan's sort.Slice over the flattened non-system notes:
insertion sort by the noteLess comparator. -/
def sortNotes : List Note → List Note
  | [] => []
  | n :: ns => insertNote n (sortNotes ns)

/-- The "newer than the last processed comment" test of the memory-less scan:
an issue never processed before counts as new; otherwise both timestamps are
parsed and compared with After, falling back to string comparison when either
fails to parse. -/
def isNewerComment (lastProcessed : Option Stamp) (current : Stamp) : Bool :=
  match lastProcessed with
  | none => true
  | some lp =>
    match lp.parsed, current.parsed with
    | some lt, some ct => ct.after lt
    | _, _ => strLt lp.raw current.raw

/-- Decision of the memory-less review scan for one review-labelled issue
(checkForHumanReviewIssuesWithContext): comments is the flattened non-system
note list after sorting (and the possible direct-API refetch); a new Run is
started exactly when the list is non-empty and its last element is classified
human and is newer than the last comment already reacted to. -/
def memorylessStartsRun (configUsername : List Char) (lastProcessed : Option Stamp)
    (comments : List Note) : Bool :=
  match comments.getLast? with
  | none => false
  | some lastComment =>
      !isBotComment configUsername lastComment
        && isNewerComment lastProcessed lastComment.createdAt

/-- Result of RunProcess for one subprocess: the Run's final status string
and the success flag handed to the completion callback (the daemon always
registers one). -/
structure RunOutcome where
  status : String
  callbackSuccess : Option Bool
  deriving DecidableEq

/-- RunProcess: a stdout-pipe failure or a start failure marks the Run failed
and invokes the callback with false before returning; otherwise the status
follows the exit code — completed on zero, failed on non-zero — and the
callback receives the corresponding flag. -/
def runProcess (pipeOk startOk exitZero : Bool) : RunOutcome :=
  if !pipeOk then ⟨"failed", some false⟩
  else if !startOk then ⟨"failed", some false⟩
  else if exitZero then ⟨"completed", some true⟩
  else ⟨"failed", some false⟩

/-- The process-manager table (keyed by process id) after RunProcessAsync
finishes one Run: the deferred RemoveProcess deletes that Run and nothing is
added — the manager never respawns a Run by itself. -/
def managerAfterRun (tbl : List (List Char)) (id : List Char) : List (List Char) :=
  tbl.filter (fun pid => pid != id)

/-- Daemon-side state touched by one Run's completion: the issue's tracker
labels and the session table. -/
structure IssueState where
  labels : List String
  table : List SessionRow
  deriving DecidableEq

/-- Success branch of the async completion handler in processIssueAsync
(tracker calls succeeding): drop the progress label from the labels returned
by GetIssue, append the review label, and store the completed session via
AddCompletedSession keyed by the issue number. -/
def onSuccessCompletion (cfg : LabelCfg) (st : IssueState) (issueNum : Nat)
    (sessionID projectPath : List Char) (now : GoTime)
    (workingDir claudeCommand claudeFlags : List Char)
    (envVars : Option (List (List Char × List Char))) : IssueState :=
  { labels := (st.labels.filter (fun l => l != cfg.processLabel)) ++ [cfg.reviewLabel]
    table := sqliteAddCompletedSession st.table issueNum sessionID projectPath now
      workingDir claudeCommand claudeFlags envVars }

/-- Failure branch of the async completion handler in processIssueAsync:
drop the progress label and append the literal "error" label; the session
table is untouched and no new Run is scheduled. -/
def onFailureCompletion (cfg : LabelCfg) (st : IssueState) : IssueState :=
  { labels := (st.labels.filter (fun l => l != cfg.processLabel)) ++ ["error"]
    table := st.table }

/-- The session identifier stored by the success handler: the captured Claude
session id when non-empty, otherwise the Run's internal process id as a
fallback. -/
def storedSessionID (claudeSessionID processID : List Char) : List Char :=
  if claudeSessionID.isEmpty then processID else claudeSessionID

/-- fmt.Sprintf("issue-%d-%d", issueNumber, unixTime): the Run's internal
process id. -/
def processIDString (issueNumber : Nat) (unixTime : Int) : List Char :=
  ['i', 's', 's', 'u', 'e', '-'] ++ (toString issueNumber).data
    ++ ['-'] ++ (toString unixTime).data

/-- One new-work scan (checkForNewClaudeIssuesWithContext): walk the fetched
trigger-labelled issue numbers in order; every number not yet in the handled
map is marked handled and claimed.  Returns the updated handled map and the
issue numbers claimed by this scan. -/
def newWorkScan (processed : List Nat) : List Nat → List Nat × List Nat
  | [] => (processed, [])
  | i :: rest =>
    if i ∈ processed then newWorkScan processed rest
    else
      let r := newWorkScan (i :: processed) rest
      (r.1, i :: r.2)

/-- The Run() poll loop (memory mode): the handled map is created once,
before the loop, and threaded through every tick.  Input: the per-tick lists
of trigger-labelled issue numbers; output: the per-tick claimed issues. -/
def runClaimedPerTick (processed : List Nat) : List (List Nat) → List (List Nat)
  | [] => []
  | tick :: ticks =>
    let r := newWorkScan processed tick
    r.2 :: runClaimedPerTick r.1 ticks

/-- The RunWithoutMemory() poll loop: a fresh handled map is created at the
start of every tick. -/
def runWithoutMemoryClaimedPerTick (ticks : List (List Nat)) : List (List Nat) :=
  ticks.map (fun tick => (newWorkScan [] tick).2)

/-- Consuming n hex characters removes exactly n characters. -/
theorem takeHex_length : ∀ (n : Nat) (cs rest : List Char),
    takeHex n cs = some rest → cs.length = n + rest.length
  | 0, cs, rest => by
    intro h
    simp [takeHex] at h
    simp [h]
  | n + 1, [], rest => by
    intro h
    simp [takeHex] at h
  | n + 1, c :: cs, rest => by
    intro h
    simp only [takeHex] at h
    by_cases hc : isHexLower c = true
    · simp [hc] at h
      have := takeHex_length n cs rest h
      simp [List.length_cons, this]
      omega
    · simp [hc] at h

/-- Consuming the dash removes exactly one character. -/
theorem takeDash_length (cs rest : List Char) (h : takeDash cs = some rest) :
    cs.length = 1 + rest.length := by
  unfold takeDash at h
  split at h
  · injection h with h
    subst h
    simp [Nat.add_comm]
  · exact absurd h (by simp)

/-- A string accepted by isValidUUID has exactly 36 characters. -/
theorem isValidUUID_length (s : List Char) (h : isValidUUID s = true) :
    s.length = 36 := by
  unfold isValidUUID at h
  rw [beq_iff_eq] at h
  obtain ⟨a8, c8, h9⟩ := Option.bind_eq_some.mp h
  obtain ⟨a7, c7, h8⟩ := Option.bind_eq_some.mp c8
  obtain ⟨a6, c6, h7⟩ := Option.bind_eq_some.mp c7
  obtain ⟨a5, c5, h6⟩ := Option.bind_eq_some.mp c6
  obtain ⟨a4, c4, h5⟩ := Option.bind_eq_some.mp c5
  obtain ⟨a3, c3, h4⟩ := Option.bind_eq_some.mp c4
  obtain ⟨a2, c2, h3⟩ := Option.bind_eq_some.mp c3
  obtain ⟨a1, c1, h2⟩ := Option.bind_eq_some.mp c2
  have l1 := takeHex_length 8 s a1 c1
  have l2 := takeDash_length a1 a2 h2
  have l3 := takeHex_length 4 a2 a3 h3
  have l4 := takeDash_length a3 a4 h4
  have l5 := takeHex_length 4 a4 a5 h5
  have l6 := takeDash_length a5 a6 h6
  have l7 := takeHex_length 4 a6 a7 h7
  have l8 := takeDash_length a7 a8 h8
  have l9 := takeHex_length 12 a8 [] h9
  simp at l9
  omega

/-- An identifier starting with the letter i (as every fallback process id
does) fails isValidUUID. -/
theorem isValidUUID_i_head (xs : List Char) : isValidUUID ('i' :: xs) = false := rfl

/-- A stored session whose identifier fails validation launches no resume
subprocess. -/
theorem resume_zero_of_invalidId (s : CompletedSession) (d : List (List Note))
    (h : isValidUUID s.sessionID = false) : memoryResumeLaunches (some s) d = 0 := by
  simp [memoryResumeLaunches, h]

/-- Membership in the startup cleanup's output: exactly the rows with a valid
identifier survive. -/
theorem mem_cleanup_iff (tbl : List SessionRow) (r : SessionRow) :
    r ∈ cleanupInvalidSessions tbl ↔ r ∈ tbl ∧ isValidUUID r.sessionID = true := by
  simp [cleanupInvalidSessions, List.mem_filter]

/-- Add-then-get on the SQLite model returns the row rebuilt with the
second-truncated completion time and a cleared last-comment time. -/
theorem sqliteAdd_get (tbl : List SessionRow) (iid : Nat) (sid pp : List Char)
    (t : GoTime) (wd cc cf : List Char) (env : Option (List (List Char × List Char))) :
    sqliteGetCompletedSession (sqliteAddCompletedSession tbl iid sid pp t wd cc cf env) iid
      = some ⟨iid, sid, pp, timeUnix t.sec, none, wd, cc, cf, env⟩ := by
  simp [sqliteAddCompletedSession, sqliteGetCompletedSession, List.find?, GoTime.unix]

/-- Add-then-get on the JSON-store model returns the record unchanged. -/
theorem jsonAdd_get (st : List CompletedSession) (iid : Nat) (sid pp : List Char)
    (t : GoTime) (wd cc cf : List Char) (env : Option (List (List Char × List Char))) :
    jsonGetCompletedSession (jsonAddCompletedSession st iid sid pp t wd cc cf env) iid
      = some ⟨iid, sid, pp, t, none, wd, cc, cf, env⟩ := by
  simp [jsonAddCompletedSession, jsonGetCompletedSession, List.find?]

/-- Characterization of the comments returned by GetIssueCommentsAfter. -/
theorem mem_getIssueCommentsAfter (d : List (List Note)) (c : GoTime) (n : Note) :
    n ∈ getIssueCommentsAfter d c ↔
      n ∈ d.join ∧ n.system = false
        ∧ ∃ u, n.createdAt.parsed = some u ∧ u.after c = true := by
  simp only [getIssueCommentsAfter, List.mem_filter, Bool.and_eq_true, Bool.not_eq_true']
  constructor
  · rintro ⟨hmem, hsys, hmatch⟩
    refine ⟨hmem, hsys, ?_⟩
    cases hp : n.createdAt.parsed with
    | none => rw [hp] at hmatch; exact absurd hmatch (by simp)
    | some u => exact ⟨u, rfl, by rw [hp] at hmatch; exact hmatch⟩
  · rintro ⟨hmem, hsys, u, hp, hafter⟩
    exact ⟨hmem, hsys, by rw [hp]; exact hafter⟩

/-- Claims of one new-work scan: exactly the listed issues not already in the
handled map. -/
theorem mem_newWorkScan_claims : ∀ (issues processed : List Nat) (i : Nat),
    i ∈ (newWorkScan processed issues).2 ↔ i ∈ issues ∧ i ∉ processed
  | [], processed, i => by simp [newWorkScan]
  | j :: rest, processed, i => by
    by_cases hj : j ∈ processed
    · rw [show newWorkScan processed (j :: rest) = newWorkScan processed rest from by
        simp [newWorkScan, hj]]
      rw [mem_newWorkScan_claims rest processed i]
      constructor
      · rintro ⟨hr, hp⟩
        exact ⟨List.mem_cons_of_mem _ hr, hp⟩
      · rintro ⟨hor, hp⟩
        rcases List.mem_cons.mp hor with rfl | hr
        · exact absurd hj hp
        · exact ⟨hr, hp⟩
    · have hrw : newWorkScan processed (j :: rest)
          = ((newWorkScan (j :: processed) rest).1, j :: (newWorkScan (j :: processed) rest).2) := by
        simp [newWorkScan, hj]
      rw [hrw]
      simp only [List.mem_cons]
      rw [mem_newWorkScan_claims rest (j :: processed) i]
      constructor
      · rintro (rfl | ⟨hr, hp⟩)
        · exact ⟨Or.inl rfl, hj⟩
        · simp only [List.mem_cons, not_or] at hp
          exact ⟨Or.inr hr, hp.2⟩
      · rintro ⟨rfl | hr, hp⟩
        · exact Or.inl rfl
        · by_cases hij : i = j
          · exact Or.inl hij
          · exact Or.inr ⟨hr, by simp [List.mem_cons, hij, hp]⟩

/-- The handled map after a scan: the old map plus everything listed. -/
theorem mem_newWorkScan_processed : ∀ (issues processed : List Nat) (i : Nat),
    i ∈ (newWorkScan processed issues).1 ↔ i ∈ processed ∨ i ∈ issues
  | [], processed, i => by simp [newWorkScan]
  | j :: rest, processed, i => by
    by_cases hj : j ∈ processed
    · rw [show newWorkScan processed (j :: rest) = newWorkScan processed rest from by
        simp [newWorkScan, hj]]
      rw [mem_newWorkScan_processed rest processed i]
      constructor
      · rintro (hp | hr)
        · exact Or.inl hp
        · exact Or.inr (List.mem_cons_of_mem _ hr)
      · rintro (hp | hor)
        · exact Or.inl hp
        · rcases List.mem_cons.mp hor with rfl | hr
          · exact Or.inl hj
          · exact Or.inr hr
    · have hrw : newWorkScan processed (j :: rest)
          = ((newWorkScan (j :: processed) rest).1, j :: (newWorkScan (j :: processed) rest).2) := by
        simp [newWorkScan, hj]
      rw [hrw]
      simp only
      rw [mem_newWorkScan_processed rest (j :: processed) i]
      simp [List.mem_cons]
      tauto

/-- The claims of one scan contain no duplicates. -/
theorem nodup_newWorkScan_claims : ∀ (issues processed : List Nat),
    ((newWorkScan processed issues).2).Nodup
  | [], processed => by simp [newWorkScan]
  | j :: rest, processed => by
    by_cases hj : j ∈ processed
    · rw [show newWorkScan processed (j :: rest) = newWorkScan processed rest from by
        simp [newWorkScan, hj]]
      exact nodup_newWorkScan_claims rest processed
    · have hrw : newWorkScan processed (j :: rest)
          = ((newWorkScan (j :: processed) rest).1, j :: (newWorkScan (j :: processed) rest).2) := by
        simp [newWorkScan, hj]
      rw [hrw]
      refine List.Nodup.cons ?_ (nodup_newWorkScan_claims rest (j :: processed))
      intro hmem
      have := (mem_newWorkScan_claims rest (j :: processed) j).mp hmem
      exact this.2 (List.mem_cons_self _ _)

/-- A note returned by getLast? is an element of the list. -/
theorem mem_of_getLastSome {α : Type} (l : List α) (a : α) (h : l.getLast? = some a) :
    a ∈ l := by
  obtain ⟨hne, rfl⟩ := List.mem_getLast?_eq_getLast (l := l) (x := a) (by rw [h]; rfl)
  exact List.getLast_mem hne

/-- Every per-tick claim list produced by the Run() loop avoids the initial
handled map. -/
theorem runClaims_not_in_processed : ∀ (ticks : List (List Nat)) (processed L : List Nat)
    (i : Nat), L ∈ runClaimedPerTick processed ticks → i ∈ L → i ∉ processed
  | [], processed, L, i => by simp [runClaimedPerTick]
  | tick :: ticks, processed, L, i => by
    intro hL hi
    simp only [runClaimedPerTick, List.mem_cons] at hL
    rcases hL with rfl | hL
    · exact ((mem_newWorkScan_claims tick processed i).mp hi).2
    · intro hp
      have hp2 : i ∈ (newWorkScan processed tick).1 :=
        (mem_newWorkScan_processed tick processed i).mpr (Or.inl hp)
      exact runClaims_not_in_processed ticks (newWorkScan processed tick).1 L i hL hi hp2

/-- Every per-tick claim list produced by the Run() loop is duplicate-free. -/
theorem runClaims_nodup : ∀ (ticks : List (List Nat)) (processed L : List Nat),
    L ∈ runClaimedPerTick processed ticks → L.Nodup
  | [], processed, L => by simp [runClaimedPerTick]
  | tick :: ticks, processed, L => by
    intro hL
    simp only [runClaimedPerTick, List.mem_cons] at hL
    rcases hL with rfl | hL
    · exact nodup_newWorkScan_claims tick processed
    · exact runClaims_nodup ticks (newWorkScan processed tick).1 L hL

/-- Claim lists of distinct ticks of the Run() loop are pairwise disjoint. -/
theorem runClaims_pairwise_disjoint : ∀ (ticks : List (List Nat)) (processed : List Nat),
    (runClaimedPerTick processed ticks).Pairwise (fun A B => ∀ i ∈ A, i ∉ B)
  | [], processed => by simp [runClaimedPerTick]
  | tick :: ticks, processed => by
    simp only [runClaimedPerTick]
    refine List.Pairwise.cons ?_ (runClaims_pairwise_disjoint ticks (newWorkScan processed tick).1)
    intro B hB i hi
    intro hiB
    have hi1 : i ∈ (newWorkScan processed tick).1 :=
      (mem_newWorkScan_processed tick processed i).mpr
        (Or.inr ((mem_newWorkScan_claims tick processed i).mp hi).1)
    exact runClaims_not_in_processed ticks (newWorkScan processed tick).1 B i hB hiB hi1

/-- C1 counterexample: the claim asserts the "already handled" set is reset
at the start of each tick in every daemon execution, so a ticket whose
trigger label is re-applied in a later cycle is picked up again.  In the
memory-mode loop Run() the set is created once, before the poll loop: with
ticket 42 carrying the trigger label in two consecutive ticks, the second
tick claims nothing, while the memory-less loop RunWithoutMemory() — whose
set really is per-cycle — claims it again. -/
theorem memoryModeHandledSet_persists :
    runClaimedPerTick [] [[42], [42]] = [[42], []]
    ∧ runWithoutMemoryClaimedPerTick [[42], [42]] = [[42], [42]] := by
  exact ⟨by decide, by decide⟩

/-- C1 amended: every ticket is processed at most once per tick in both poll
loops (the per-tick claim lists are duplicate-free).  In RunWithoutMemory()
the handled set is created fresh each tick, so a ticket listed with the
trigger label in a tick is claimed in that tick regardless of earlier cycles;
in Run() the handled set is created once per daemon execution and persists
across ticks, so a ticket claimed in one cycle is never claimed again by the
new-work scan of a later cycle even if the trigger label is re-applied
(cross-cycle dedupe there rests on the in-memory set, not only on labels). -/
theorem handledSet_per_mode (ticks : List (List Nat)) (tick : List Nat) (i : Nat) :
    (∀ L ∈ runWithoutMemoryClaimedPerTick ticks, L.Nodup)
    ∧ (∀ L ∈ runClaimedPerTick [] ticks, L.Nodup)
    ∧ (i ∈ (newWorkScan [] tick).2 ↔ i ∈ tick)
    ∧ (runClaimedPerTick [] ticks).Pairwise (fun A B => ∀ j ∈ A, j ∉ B) := by
  refine ⟨?_, ?_, ?_, runClaims_pairwise_disjoint ticks []⟩
  · intro L hL
    simp only [runWithoutMemoryClaimedPerTick, List.mem_map] at hL
    obtain ⟨t, _, rfl⟩ := hL
    exact nodup_newWorkScan_claims t []
  · intro L hL
    exact runClaims_nodup ticks [] L hL
  · rw [mem_newWorkScan_claims tick [] i]
    simp

/-- C1 witness: the amended statement at the concrete two-tick trace. -/
theorem handledSet_per_mode_witness :
    (∀ L ∈ runWithoutMemoryClaimedPerTick [[42], [42]], L.Nodup)
    ∧ (∀ L ∈ runClaimedPerTick [] [[42], [42]], L.Nodup)
    ∧ (42 ∈ (newWorkScan [] [42]).2 ↔ 42 ∈ [42])
    ∧ (runClaimedPerTick [] [[42], [42]]).Pairwise (fun A B => ∀ j ∈ A, j ∉ B) :=
  handledSet_per_mode [[42], [42]] [42] 42

/-- C2 counterexample: the claim says the review scan's cutoff is the later
(maximum) of the stored completion time and the stored last-seen-comment
time.  On a record with completion time 100s and last-comment time 50s the
code takes the last-comment time (50s), not the maximum (100s), and a
non-system note at 80s — at most the claimed cutoff — is returned as new. -/
theorem reviewCutoff_not_max :
    cutoffTime ⟨7, [], [], ⟨100, 0⟩, some ⟨50, 0⟩, [], [], [], none⟩ = ⟨50, 0⟩
    ∧ laterTime (⟨100, 0⟩ : GoTime) ⟨50, 0⟩ = ⟨100, 0⟩
    ∧ ((⟨50, 0⟩ : GoTime) ≠ ⟨100, 0⟩)
    ∧ getIssueCommentsAfter [[⟨⟨("a".data), ("a".data)⟩, [], ⟨[], some ⟨80, 0⟩⟩, false⟩]]
        (cutoffTime ⟨7, [], [], ⟨100, 0⟩, some ⟨50, 0⟩, [], [], [], none⟩)
        = [⟨⟨("a".data), ("a".data)⟩, [], ⟨[], some ⟨80, 0⟩⟩, false⟩]
    ∧ (GoTime.after ⟨80, 0⟩ ⟨100, 0⟩ = false) := by
  refine ⟨by decide, by decide, by decide, by decide, by decide⟩

/-- C2 amended: the review scan's cutoff is the stored last-seen-comment
time when one is present, otherwise the stored completion time (this equals
the later of the two whenever the last-seen time is not older than the
completion time, which holds for every record the daemon itself writes); a
non-system note with a parseable timestamp is treated as new exactly when its
creation time is strictly after that cutoff — a note one second after a
whole-second cutoff is new, a note exactly at the cutoff is not. -/
theorem reviewCutoff_semantics (s : CompletedSession) (d : List (List Note))
    (n : Note) (t : GoTime) :
    (s.lastCommentTime = some t → cutoffTime s = t)
    ∧ (s.lastCommentTime = none → cutoffTime s = s.completionTime)
    ∧ (s.lastCommentTime = some t → GoTime.after t s.completionTime = true →
        cutoffTime s = laterTime s.completionTime t)
    ∧ (n ∈ getIssueCommentsAfter d (cutoffTime s) ↔
        n ∈ d.join ∧ n.system = false
          ∧ ∃ u, n.createdAt.parsed = some u ∧ u.after (cutoffTime s) = true)
    ∧ (GoTime.after ⟨t.sec + 1, t.nsec⟩ t = true)
    ∧ (GoTime.after t t = false) := by
  refine ⟨?_, ?_, ?_, mem_getIssueCommentsAfter d (cutoffTime s) n, ?_, ?_⟩
  · intro h; simp [cutoffTime, h]
  · intro h; simp [cutoffTime, h]
  · intro h hafter; simp [cutoffTime, h, laterTime, hafter]
  · simp [GoTime.after]
  · simp [GoTime.after]

/-- C2 witness: the amended statement at a concrete record and note. -/
theorem reviewCutoff_semantics_witness :
    ((⟨7, [], [], ⟨100, 0⟩, some ⟨150, 0⟩, [], [], [], none⟩ : CompletedSession).lastCommentTime
        = some ⟨150, 0⟩ →
      cutoffTime ⟨7, [], [], ⟨100, 0⟩, some ⟨150, 0⟩, [], [], [], none⟩ = ⟨150, 0⟩)
    ∧ ((⟨7, [], [], ⟨100, 0⟩, some ⟨150, 0⟩, [], [], [], none⟩ : CompletedSession).lastCommentTime
        = none →
      cutoffTime ⟨7, [], [], ⟨100, 0⟩, some ⟨150, 0⟩, [], [], [], none⟩
        = (⟨7, [], [], ⟨100, 0⟩, some ⟨150, 0⟩, [], [], [], none⟩ : CompletedSession).completionTime)
    ∧ ((⟨7, [], [], ⟨100, 0⟩, some ⟨150, 0⟩, [], [], [], none⟩ : CompletedSession).lastCommentTime
        = some ⟨150, 0⟩ →
      GoTime.after ⟨150, 0⟩
          (⟨7, [], [], ⟨100, 0⟩, some ⟨150, 0⟩, [], [], [], none⟩ : CompletedSession).completionTime
        = true →
      cutoffTime ⟨7, [], [], ⟨100, 0⟩, some ⟨150, 0⟩, [], [], [], none⟩
        = laterTime
            (⟨7, [], [], ⟨100, 0⟩, some ⟨150, 0⟩, [], [], [], none⟩ : CompletedSession).completionTime
            ⟨150, 0⟩)
    ∧ ((⟨⟨("a".data), ("a".data)⟩, [], ⟨[], some ⟨151, 0⟩⟩, false⟩ : Note)
        ∈ getIssueCommentsAfter [[⟨⟨("a".data), ("a".data)⟩, [], ⟨[], some ⟨151, 0⟩⟩, false⟩]]
            (cutoffTime ⟨7, [], [], ⟨100, 0⟩, some ⟨150, 0⟩, [], [], [], none⟩) ↔
        (⟨⟨("a".data), ("a".data)⟩, [], ⟨[], some ⟨151, 0⟩⟩, false⟩ : Note)
          ∈ ([[⟨⟨("a".data), ("a".data)⟩, [], ⟨[], some ⟨151, 0⟩⟩, false⟩]] : List (List Note)).join
        ∧ (⟨⟨("a".data), ("a".data)⟩, [], ⟨[], some ⟨151, 0⟩⟩, false⟩ : Note).system = false
        ∧ ∃ u, (⟨⟨("a".data), ("a".data)⟩, [], ⟨[], some ⟨151, 0⟩⟩, false⟩ : Note).createdAt.parsed
              = some u
            ∧ u.after (cutoffTime ⟨7, [], [], ⟨100, 0⟩, some ⟨150, 0⟩, [], [], [], none⟩) = true)
    ∧ (GoTime.after ⟨(150 : Int) + 1, 0⟩ ⟨150, 0⟩ = true)
    ∧ (GoTime.after ⟨150, 0⟩ ⟨150, 0⟩ = false) :=
  reviewCutoff_semantics ⟨7, [], [], ⟨100, 0⟩, some ⟨150, 0⟩, [], [], [], none⟩
    [[⟨⟨("a".data), ("a".data)⟩, [], ⟨[], some ⟨151, 0⟩⟩, false⟩]]
    ⟨⟨("a".data), ("a".data)⟩, [], ⟨[], some ⟨151, 0⟩⟩, false⟩ ⟨150, 0⟩

/-- C3 counterexample: the claim says a review-labelled ticket whose only
post-cutoff comment is authored by the bot account yields zero resume
subprocesses in memory mode.  With a stored valid session (completion 100s,
no last-comment time) and a single non-system comment at 200s authored by
the bot account (name "Claude Bot", handle "claude-bot"), the memory-mode
review scan launches one resume subprocess: it never classifies authors. -/
theorem memoryMode_resumes_on_bot_comment :
    memoryResumeLaunches
        (some ⟨7, ("a1b2c3d4-e5f6-7890-abcd-ef1234567890".data), ("g/p".data),
          ⟨100, 0⟩, none, [], [], [], none⟩)
        [[⟨⟨("Claude Bot".data), ("claude-bot".data)⟩, [], ⟨[], some ⟨200, 0⟩⟩, false⟩]] = 1
    ∧ isBotComment ("claude-bot".data)
        ⟨⟨("Claude Bot".data), ("claude-bot".data)⟩, [], ⟨[], some ⟨200, 0⟩⟩, false⟩ = true := by
  exact ⟨by decide, by decide⟩

/-- C3 amended: in memory-less mode a review-labelled ticket all of whose
listed non-system comments are classified bot-authored starts zero new Runs;
in memory mode the review scan performs no author classification, so even
when every post-cutoff comment is bot-authored it still launches one resume
subprocess as soon as some post-cutoff comment exists and the stored session
id is valid. -/
theorem botOnlyComments_decisions (configUsername : List Char)
    (lastProcessed : Option Stamp) (comments : List Note)
    (s : CompletedSession) (d : List (List Note))
    (hbotAll : ∀ n ∈ comments, isBotComment configUsername n = true)
    (hbotNew : ∀ n ∈ getIssueCommentsAfter d (cutoffTime s),
        isBotComment configUsername n = true)
    (hnonempty : getIssueCommentsAfter d (cutoffTime s) ≠ [])
    (hvalid : isValidUUID s.sessionID = true) :
    memorylessStartsRun configUsername lastProcessed comments = false
    ∧ memoryResumeLaunches (some s) d = 1 := by
  constructor
  · unfold memorylessStartsRun
    cases hlast : comments.getLast? with
    | none => rfl
    | some lastComment =>
      have hmem := mem_of_getLastSome comments lastComment hlast
      simp [hbotAll lastComment hmem]
  · simp [memoryResumeLaunches, hvalid, hnonempty]

/-- C3 witness: the amended statement at the concrete bot-comment scenario. -/
theorem botOnlyComments_decisions_witness :
    memorylessStartsRun ("claude-bot".data) none
        [⟨⟨("Claude Bot".data), ("claude-bot".data)⟩, [], ⟨[], some ⟨200, 0⟩⟩, false⟩] = false
    ∧ memoryResumeLaunches
        (some ⟨7, ("a1b2c3d4-e5f6-7890-abcd-ef1234567890".data), ("g/p".data),
          ⟨100, 0⟩, none, [], [], [], none⟩)
        [[⟨⟨("Claude Bot".data), ("claude-bot".data)⟩, [], ⟨[], some ⟨200, 0⟩⟩, false⟩]] = 1 :=
  botOnlyComments_decisions ("claude-bot".data) none
    [⟨⟨("Claude Bot".data), ("claude-bot".data)⟩, [], ⟨[], some ⟨200, 0⟩⟩, false⟩]
    ⟨7, ("a1b2c3d4-e5f6-7890-abcd-ef1234567890".data), ("g/p".data), ⟨100, 0⟩, none, [], [], [], none⟩
    [[⟨⟨("Claude Bot".data), ("claude-bot".data)⟩, [], ⟨[], some ⟨200, 0⟩⟩, false⟩]]
    (by decide) (by decide) (by decide) (by decide)

/-- C4: the session-id examples behave as claimed — the canonical token
passes validation, the fallback-format identifier fails — a stored session
whose identifier fails validation launches no resume subprocess, the startup
maintenance pass keeps exactly the rows whose identifier passes validation
(so it deletes every invalid record), and every accepted identifier has
exactly 36 characters. -/
theorem sessionIdValidation_enforced (s : CompletedSession) (d : List (List Note))
    (tbl : List SessionRow) (r : SessionRow)
    (hinv : isValidUUID s.sessionID = false) :
    isValidUUID ("a1b2c3d4-e5f6-7890-abcd-ef1234567890".data) = true
    ∧ isValidUUID ("issue-42-1699999999".data) = false
    ∧ memoryResumeLaunches (some s) d = 0
    ∧ (r ∈ cleanupInvalidSessions tbl ↔ r ∈ tbl ∧ isValidUUID r.sessionID = true)
    ∧ (∀ t : List Char, isValidUUID t = true → t.length = 36) :=
  ⟨by decide, by decide, resume_zero_of_invalidId s d hinv, mem_cleanup_iff tbl r,
    fun t ht => isValidUUID_length t ht⟩

/-- C4 witness: the statement at a concrete invalid record and a two-row
table holding one valid and one invalid identifier. -/
theorem sessionIdValidation_enforced_witness :
    isValidUUID (("issue-42-1699999999".data)) = false
    ∧ (isValidUUID ("a1b2c3d4-e5f6-7890-abcd-ef1234567890".data) = true
      ∧ isValidUUID ("issue-42-1699999999".data) = false
      ∧ memoryResumeLaunches
          (some ⟨42, ("issue-42-1699999999".data), [], ⟨100, 0⟩, none, [], [], [], none⟩) [[]] = 0
      ∧ ((⟨42, ("issue-42-1699999999".data), [], 100, none, [], [], [], none⟩ : SessionRow)
          ∈ cleanupInvalidSessions
              [⟨42, ("issue-42-1699999999".data), [], 100, none, [], [], [], none⟩,
                ⟨7, ("a1b2c3d4-e5f6-7890-abcd-ef1234567890".data), [], 100, none, [], [], [], none⟩] ↔
          (⟨42, ("issue-42-1699999999".data), [], 100, none, [], [], [], none⟩ : SessionRow)
            ∈ [⟨42, ("issue-42-1699999999".data), [], 100, none, [], [], [], none⟩,
                ⟨7, ("a1b2c3d4-e5f6-7890-abcd-ef1234567890".data), [], 100, none, [], [], [], none⟩]
          ∧ isValidUUID
              (⟨42, ("issue-42-1699999999".data), [], 100, none, [], [], [], none⟩ : SessionRow).sessionID
            = true)
      ∧ (∀ t : List Char, isValidUUID t = true → t.length = 36)) :=
  ⟨by decide,
    sessionIdValidation_enforced
      ⟨42, ("issue-42-1699999999".data), [], ⟨100, 0⟩, none, [], [], [], none⟩ [[]]
      [⟨42, ("issue-42-1699999999".data), [], 100, none, [], [], [], none⟩,
        ⟨7, ("a1b2c3d4-e5f6-7890-abcd-ef1234567890".data), [], 100, none, [], [], [], none⟩]
      ⟨42, ("issue-42-1699999999".data), [], 100, none, [], [], [], none⟩
      (by decide)⟩

/-- C5: the daemon's bot-comment detection coincides with the spec's
classification — display name or handle containing a bot-indicating
substring ("claude"/"bot" for names, "bot" for handles, case-insensitive),
or handle equal to the configured service-account handle when that handle
itself contains a bot-indicating substring — and on the two reference
authors a note by (name "Claude Bot", handle "claude-bot") is classified bot
while a note by (name "Alice", handle "alice123") is classified human, for
every configured username. -/
theorem botClassifier_matches_spec (configUsername : List Char) (n : Note) :
    isBotComment configUsername n = specBotClassifier configUsername n
    ∧ isBotComment configUsername
        ⟨⟨("Claude Bot".data), ("claude-bot".data)⟩, [], ⟨[], none⟩, false⟩ = true
    ∧ isBotComment configUsername
        ⟨⟨("Alice".data), ("alice123".data)⟩, [], ⟨[], none⟩, false⟩ = false := by
  refine ⟨?_, ?_, ?_⟩
  · simp only [isBotComment, specBotClassifier, nameHasBotIndicator, handleHasBotIndicator]
    rw [Bool.and_comm]
  · have h1 : goContains (asciiLower ("Claude Bot".data)) ("claude".data) = true := by decide
    simp [isBotComment, h1]
  · have h1 : goContains (asciiLower ("Alice".data)) ("claude".data) = false := by decide
    have h2 : goContains (asciiLower ("Alice".data)) ("bot".data) = false := by decide
    have h3 : goContains (asciiLower ("alice123".data)) ("bot".data) = false := by decide
    by_cases h : ("alice123".data : List Char) = configUsername
    · subst h
      decide
    · simp [isBotComment, h1, h2, h3, h]

/-- C6: the label-claim transition maps a ticket's label set to
(labels minus the trigger label minus the review label) plus the in-progress
label, in one tracker update, and applying it a second time leaves the label
set unchanged. -/
theorem labelClaim_idempotent (cfg : LabelCfg) (labels : List String)
    (h1 : cfg.processLabel ≠ cfg.claudeLabel) (h2 : cfg.processLabel ≠ cfg.reviewLabel) :
    (processIssueNewLabels cfg labels).toFinset
        = (labels.toFinset \ {cfg.claudeLabel, cfg.reviewLabel}) ∪ {cfg.processLabel}
    ∧ (processIssueNewLabels cfg (processIssueNewLabels cfg labels)).toFinset
        = (processIssueNewLabels cfg labels).toFinset := by
  have hmem : ∀ (L : List String) (x : String),
      x ∈ processIssueNewLabels cfg L ↔
        ((x ∈ L ∧ x ≠ cfg.claudeLabel ∧ x ≠ cfg.reviewLabel) ∨ x = cfg.processLabel) := by
    intro L x
    simp [processIssueNewLabels, List.mem_filter, List.mem_append, and_assoc]
  constructor
  · ext x
    simp only [List.mem_toFinset, hmem, Finset.mem_union, Finset.mem_sdiff,
      Finset.mem_insert, Finset.mem_singleton]
    tauto
  · ext x
    simp only [List.mem_toFinset, hmem]
    constructor
    · rintro (⟨hl | rfl, hc, hr⟩ | rfl)
      · exact Or.inl ⟨hl.1, hc, hr⟩
      · exact Or.inr rfl
      · exact Or.inr rfl
    · rintro (⟨hin, hc, hr⟩ | rfl)
      · exact Or.inl ⟨Or.inl ⟨hin, hc, hr⟩, hc, hr⟩
      · exact Or.inl ⟨Or.inr rfl, h1, h2⟩

/-- C6 witness: the statement at the default label configuration on a ticket
carrying the trigger label and one unrelated label. -/
theorem labelClaim_idempotent_witness :
    (("picked_up_by_claude" : String) ≠ "claude")
    ∧ (("picked_up_by_claude" : String) ≠ "waiting_human_review")
    ∧ ((processIssueNewLabels ⟨"claude", "picked_up_by_claude", "waiting_human_review"⟩
          [("claude" : String), "bug"]).toFinset
        = (([("claude" : String), "bug"]).toFinset \ {("claude" : String), "waiting_human_review"})
            ∪ {("picked_up_by_claude" : String)}
      ∧ (processIssueNewLabels ⟨"claude", "picked_up_by_claude", "waiting_human_review"⟩
            (processIssueNewLabels ⟨"claude", "picked_up_by_claude", "waiting_human_review"⟩
              [("claude" : String), "bug"])).toFinset
        = (processIssueNewLabels ⟨"claude", "picked_up_by_claude", "waiting_human_review"⟩
            [("claude" : String), "bug"]).toFinset) :=
  ⟨by decide, by decide,
    labelClaim_idempotent ⟨"claude", "picked_up_by_claude", "waiting_human_review"⟩
      [("claude" : String), "bug"] (by decide) (by decide)⟩

/-- C7: a Run whose subprocess exits zero completes with status "completed"
and a success callback; after the success branch of the async completion
handler runs (with tracker calls succeeding), the ticket's labels no longer
contain the progress label, contain the review label, and the session table
holds a record keyed by the ticket number. -/
theorem successCompletion_effects (cfg : LabelCfg) (st : IssueState) (issueNum : Nat)
    (sid pp : List Char) (now : GoTime) (wd cc cf : List Char)
    (env : Option (List (List Char × List Char)))
    (h : cfg.reviewLabel ≠ cfg.processLabel) :
    runProcess true true true = ⟨"completed", some true⟩
    ∧ cfg.processLabel ∉ (onSuccessCompletion cfg st issueNum sid pp now wd cc cf env).labels
    ∧ cfg.reviewLabel ∈ (onSuccessCompletion cfg st issueNum sid pp now wd cc cf env).labels
    ∧ sqliteGetCompletedSession
        (onSuccessCompletion cfg st issueNum sid pp now wd cc cf env).table issueNum
      = some ⟨issueNum, sid, pp, timeUnix now.sec, none, wd, cc, cf, env⟩ := by
  refine ⟨rfl, ?_, ?_, ?_⟩
  · simp only [onSuccessCompletion, List.mem_append, List.mem_filter, List.mem_singleton]
    rintro (⟨_, hne⟩ | heq)
    · simp at hne
    · exact h heq.symm
  · simp [onSuccessCompletion]
  · exact sqliteAdd_get st.table issueNum sid pp now wd cc cf env

/-- C7 witness: the statement at the default labels and a ticket carrying
the progress label and one unrelated label. -/
theorem successCompletion_effects_witness :
    (("waiting_human_review" : String) ≠ "picked_up_by_claude")
    ∧ (runProcess true true true = ⟨"completed", some true⟩
      ∧ ("picked_up_by_claude" : String)
          ∉ (onSuccessCompletion ⟨"claude", "picked_up_by_claude", "waiting_human_review"⟩
              ⟨[("picked_up_by_claude" : String), "bug"], []⟩ 42
              ("a1b2c3d4-e5f6-7890-abcd-ef1234567890".data) ("g/p".data) ⟨100, 0⟩
              [] [] [] none).labels
      ∧ ("waiting_human_review" : String)
          ∈ (onSuccessCompletion ⟨"claude", "picked_up_by_claude", "waiting_human_review"⟩
              ⟨[("picked_up_by_claude" : String), "bug"], []⟩ 42
              ("a1b2c3d4-e5f6-7890-abcd-ef1234567890".data) ("g/p".data) ⟨100, 0⟩
              [] [] [] none).labels
      ∧ sqliteGetCompletedSession
            (onSuccessCompletion ⟨"claude", "picked_up_by_claude", "waiting_human_review"⟩
              ⟨[("picked_up_by_claude" : String), "bug"], []⟩ 42
              ("a1b2c3d4-e5f6-7890-abcd-ef1234567890".data) ("g/p".data) ⟨100, 0⟩
              [] [] [] none).table 42
          = some ⟨42, ("a1b2c3d4-e5f6-7890-abcd-ef1234567890".data), ("g/p".data),
              timeUnix (100 : Int), none, [], [], [], none⟩) :=
  ⟨by decide,
    successCompletion_effects ⟨"claude", "picked_up_by_claude", "waiting_human_review"⟩
      ⟨[("picked_up_by_claude" : String), "bug"], []⟩ 42
      ("a1b2c3d4-e5f6-7890-abcd-ef1234567890".data) ("g/p".data) ⟨100, 0⟩ [] [] [] none
      (by decide)⟩

/-- C8: a start failure or a non-zero exit leaves the Run with status
"failed" and a failure callback; the failure branch of the completion
handler removes the progress label and adds the literal "error" label,
touches neither the session table, and the manager's post-run table only
removes the finished Run — nothing is respawned. -/
theorem failureCompletion_effects (cfg : LabelCfg) (st : IssueState)
    (pipeOk startOk exitZero : Bool) (tbl : List (List Char)) (id pid : List Char)
    (hfail : startOk = false ∨ exitZero = false) (herr : cfg.processLabel ≠ "error") :
    runProcess pipeOk startOk exitZero = ⟨"failed", some false⟩
    ∧ cfg.processLabel ∉ (onFailureCompletion cfg st).labels
    ∧ ("error" : String) ∈ (onFailureCompletion cfg st).labels
    ∧ (onFailureCompletion cfg st).table = st.table
    ∧ id ∉ managerAfterRun tbl id
    ∧ (pid ∈ managerAfterRun tbl id → pid ∈ tbl) := by
  refine ⟨?_, ?_, ?_, rfl, ?_, ?_⟩
  · rcases hfail with rfl | rfl
    · cases pipeOk <;> cases exitZero <;> rfl
    · cases pipeOk <;> cases startOk <;> rfl
  · simp only [onFailureCompletion, List.mem_append, List.mem_filter, List.mem_singleton]
    rintro (⟨_, hne⟩ | heq)
    · simp at hne
    · exact herr heq
  · simp [onFailureCompletion]
  · simp [managerAfterRun, List.mem_filter]
  · intro hm
    exact (List.mem_filter.mp hm).1

/-- C8 witness: the statement at the default labels, a non-zero exit, and a
one-entry manager table. -/
theorem failureCompletion_effects_witness :
    ((false : Bool) = false ∨ (false : Bool) = false)
    ∧ (("picked_up_by_claude" : String) ≠ "error")
    ∧ (runProcess true true false = ⟨"failed", some false⟩
      ∧ ("picked_up_by_claude" : String)
          ∉ (onFailureCompletion ⟨"claude", "picked_up_by_claude", "waiting_human_review"⟩
              ⟨[("picked_up_by_claude" : String), "bug"], []⟩).labels
      ∧ ("error" : String)
          ∈ (onFailureCompletion ⟨"claude", "picked_up_by_claude", "waiting_human_review"⟩
              ⟨[("picked_up_by_claude" : String), "bug"], []⟩).labels
      ∧ (onFailureCompletion ⟨"claude", "picked_up_by_claude", "waiting_human_review"⟩
            ⟨[("picked_up_by_claude" : String), "bug"], []⟩).table
          = (⟨[("picked_up_by_claude" : String), "bug"], []⟩ : IssueState).table
      ∧ ("issue-42-1699999999".data) ∉ managerAfterRun [("issue-42-1699999999".data)]
          ("issue-42-1699999999".data)
      ∧ (("x".data) ∈ managerAfterRun [("issue-42-1699999999".data)] ("issue-42-1699999999".data) →
          ("x".data) ∈ [("issue-42-1699999999".data)])) :=
  ⟨Or.inl rfl, by decide,
    failureCompletion_effects ⟨"claude", "picked_up_by_claude", "waiting_human_review"⟩
      ⟨[("picked_up_by_claude" : String), "bug"], []⟩ true false false
      [("issue-42-1699999999".data)] ("issue-42-1699999999".data) ("x".data)
      (Or.inl rfl) (by decide)⟩

/-- C9 counterexample: the claim says add-then-read returns the completion
time exactly.  The SQLite store persists completion_time as unix seconds, so
writing a completion time with a non-zero nanosecond part (100s + 0.5s) and
reading it back yields time.Unix(100, 0), not the written value. -/
theorem sqliteRoundTrip_truncates :
    sqliteGetCompletedSession
        (sqliteAddCompletedSession [] 1 (("sid".data)) (("g/p".data)) ⟨100, 500000000⟩
          [] [] [] none) 1
      = some ⟨1, ("sid".data), ("g/p".data), ⟨100, 0⟩, none, [], [], [], none⟩
    ∧ ((⟨100, 0⟩ : GoTime) ≠ ⟨100, 500000000⟩) := by
  exact ⟨by decide, by decide⟩

/-- C9 amended: add-then-read round-trips the session id, project path,
working directory, command, flags and environment snapshot exactly in both
stores; the default SQLite store persists the completion time at whole-second
granularity, so it round-trips exactly when (and only when) the written
time's sub-second part is zero, while the legacy JSON store round-trips the
completion time exactly as well. -/
theorem sessionRoundTrip_fields (tbl : List SessionRow) (st : List CompletedSession)
    (iid : Nat) (sid pp wd cc cf : List Char) (t : GoTime)
    (env : Option (List (List Char × List Char))) (hns : t.nsec = 0) :
    sqliteGetCompletedSession (sqliteAddCompletedSession tbl iid sid pp t wd cc cf env) iid
      = some ⟨iid, sid, pp, timeUnix t.sec, none, wd, cc, cf, env⟩
    ∧ sqliteGetCompletedSession (sqliteAddCompletedSession tbl iid sid pp t wd cc cf env) iid
      = some ⟨iid, sid, pp, t, none, wd, cc, cf, env⟩
    ∧ jsonGetCompletedSession (jsonAddCompletedSession st iid sid pp t wd cc cf env) iid
      = some ⟨iid, sid, pp, t, none, wd, cc, cf, env⟩ := by
  have ht : timeUnix t.sec = t := by
    cases t with
    | mk sec nsec => simp [timeUnix] at hns ⊢; omega
  refine ⟨sqliteAdd_get tbl iid sid pp t wd cc cf env, ?_, jsonAdd_get st iid sid pp t wd cc cf env⟩
  rw [sqliteAdd_get tbl iid sid pp t wd cc cf env, ht]

/-- C9 witness: the amended statement at a concrete whole-second record with
a non-trivial environment snapshot. -/
theorem sessionRoundTrip_fields_witness :
    ((⟨100, 0⟩ : GoTime).nsec = 0)
    ∧ (sqliteGetCompletedSession
          (sqliteAddCompletedSession [] 42 (("sid".data)) (("g/p".data)) ⟨100, 0⟩
            (("/w".data)) (("claude".data)) (("-v".data)) (some [(("HOME".data), ("/root".data))])) 42
        = some ⟨42, ("sid".data), ("g/p".data), timeUnix (100 : Int), none, ("/w".data),
            ("claude".data), ("-v".data), some [(("HOME".data), ("/root".data))]⟩
      ∧ sqliteGetCompletedSession
          (sqliteAddCompletedSession [] 42 (("sid".data)) (("g/p".data)) ⟨100, 0⟩
            (("/w".data)) (("claude".data)) (("-v".data)) (some [(("HOME".data), ("/root".data))])) 42
        = some ⟨42, ("sid".data), ("g/p".data), ⟨100, 0⟩, none, ("/w".data),
            ("claude".data), ("-v".data), some [(("HOME".data), ("/root".data))]⟩
      ∧ jsonGetCompletedSession
          (jsonAddCompletedSession [] 42 (("sid".data)) (("g/p".data)) ⟨100, 0⟩
            (("/w".data)) (("claude".data)) (("-v".data)) (some [(("HOME".data), ("/root".data))])) 42
        = some ⟨42, ("sid".data), ("g/p".data), ⟨100, 0⟩, none, ("/w".data),
            ("claude".data), ("-v".data), some [(("HOME".data), ("/root".data))]⟩) :=
  ⟨rfl,
    sessionRoundTrip_fields [] [] 42 (("sid".data)) (("g/p".data)) (("/w".data))
      (("claude".data)) (("-v".data)) ⟨100, 0⟩ (some [(("HOME".data), ("/root".data))]) rfl⟩

/-- C10: when a Run completes without a captured session id, the success
handler stores the Run's internal process id "issue-(ticket)-(unix-time)" as
the session identifier: the fallback is used verbatim, the durable record is
written under the ticket number with that identifier, the identifier fails
the canonical validation, and a stored session carrying it never launches a
resume subprocess. -/
theorem fallbackSessionId_unresumable (issueNumber : Nat) (unixTime : Int)
    (cfg : LabelCfg) (st : IssueState) (pp : List Char) (now : GoTime)
    (wd cc cf : List Char) (env : Option (List (List Char × List Char)))
    (d : List (List Note)) (s : CompletedSession)
    (hs : s.sessionID = processIDString issueNumber unixTime) :
    storedSessionID [] (processIDString issueNumber unixTime)
      = processIDString issueNumber unixTime
    ∧ sqliteGetCompletedSession
        (onSuccessCompletion cfg st issueNumber
          (storedSessionID [] (processIDString issueNumber unixTime)) pp now wd cc cf env).table
        issueNumber
      = some ⟨issueNumber, processIDString issueNumber unixTime, pp, timeUnix now.sec,
          none, wd, cc, cf, env⟩
    ∧ isValidUUID (processIDString issueNumber unixTime) = false
    ∧ memoryResumeLaunches (some s) d = 0 := by
  have hinvalid : isValidUUID (processIDString issueNumber unixTime) = false := by
    simp only [processIDString, List.cons_append]
    exact isValidUUID_i_head _
  refine ⟨rfl, ?_, hinvalid, ?_⟩
  · exact sqliteAdd_get st.table issueNumber
      (storedSessionID [] (processIDString issueNumber unixTime)) pp now wd cc cf env
  · exact resume_zero_of_invalidId s d (by rw [hs]; exact hinvalid)

/-- C10 witness: the statement at ticket 42 with unix time 1699999999. -/
theorem fallbackSessionId_unresumable_witness :
    ((⟨42, processIDString 42 1699999999, [], ⟨100, 0⟩, none, [], [], [],
        none⟩ : CompletedSession).sessionID = processIDString 42 1699999999)
    ∧ (storedSessionID [] (processIDString 42 1699999999) = processIDString 42 1699999999
      ∧ sqliteGetCompletedSession
          (onSuccessCompletion ⟨"claude", "picked_up_by_claude", "waiting_human_review"⟩
            ⟨[], []⟩ 42 (storedSessionID [] (processIDString 42 1699999999)) (("g/p".data))
            ⟨100, 0⟩ [] [] [] none).table 42
        = some ⟨42, processIDString 42 1699999999, ("g/p".data), timeUnix (100 : Int),
            none, [], [], [], none⟩
      ∧ isValidUUID (processIDString 42 1699999999) = false
      ∧ memoryResumeLaunches
          (some ⟨42, processIDString 42 1699999999, [], ⟨100, 0⟩, none, [], [], [], none⟩)
          [[]] = 0) :=
  ⟨rfl,
    fallbackSessionId_unresumable 42 1699999999
      ⟨"claude", "picked_up_by_claude", "waiting_human_review"⟩ ⟨[], []⟩ (("g/p".data))
      ⟨100, 0⟩ [] [] [] none [[]]
      ⟨42, processIDString 42 1699999999, [], ⟨100, 0⟩, none, [], [], [], none⟩ rfl⟩
